import Mathlib

/-!
# Verification of `compile_car.py` (asset-catalog compilation orchestrator)

A shallow embedding of `src/tools/mac/icons/compile_car.py`. Python strings
are modelled as Lean `String`s (or `List Char` where structural recursion is
needed); the external `actool` process is modelled by its structured response
(`InvocationResult`); filesystem copies are modelled as an explicit list of
`CopyOp` records produced by the orchestrator.
-/

namespace CompileCar

/-! ## Decimal digits

`_split_version` applies Python `int` to each dot-separated segment, and
`_unsplit_version` applies Python `str` to each tuple component. We model
decimal digit/value conversion with an explicit table. -/

/-- Is `c` one of the ten ASCII decimal digits? (Python `int` accepts exactly
decimal-digit segments of the version strings considered here.) -/
def isDigitChar (c : Char) : Bool :=
  c = '0' || c = '1' || c = '2' || c = '3' || c = '4' ||
  c = '5' || c = '6' || c = '7' || c = '8' || c = '9'

/-- Value of a decimal digit character (garbage `10` on non-digits). -/
def charVal (c : Char) : Nat :=
  if c = '0' then 0 else if c = '1' then 1 else if c = '2' then 2 else
  if c = '3' then 3 else if c = '4' then 4 else if c = '5' then 5 else
  if c = '6' then 6 else if c = '7' then 7 else if c = '8' then 8 else
  if c = '9' then 9 else 10

/-- The decimal digit character for a value `< 10`. -/
def digitChar (d : Nat) : Char :=
  if d = 0 then '0' else if d = 1 then '1' else if d = 2 then '2' else
  if d = 3 then '3' else if d = 4 then '4' else if d = 5 then '5' else
  if d = 6 then '6' else if d = 7 then '7' else if d = 8 then '8' else '9'

/-- Numeric value of a big-endian decimal digit string, as Python
`int` computes it. -/
def digitsVal (l : List Char) : Nat :=
  Nat.ofDigits 10 (l.reverse.map charVal)

/-- Little-endian base-10 digit list of `n`, computed with explicit fuel so
that the kernel can evaluate it (equal to `Nat.digits 10 n` for adequate
fuel, see `decDigits_eq_digits`). -/
def decDigitsAux (fuel n : Nat) : List Nat :=
  match fuel with
  | 0 => []
  | fuel + 1 => if n = 0 then [] else n % 10 :: decDigitsAux fuel (n / 10)

/-- Little-endian base-10 digit list of `n`. -/
def decDigits (n : Nat) : List Nat := decDigitsAux n n

/-- Big-endian decimal representation of a natural number, as Python `str`
produces it. -/
def natDigits (n : Nat) : List Char :=
  if n = 0 then ['0'] else ((decDigits n).map digitChar).reverse

/-! ## Splitting on a separator character

Model of Python `s.split(sep)` for a one-character separator, and
`sep.join(...)`. -/

/-- Python `s.split(sep)` on the character list of `s`. -/
def splitChar (sep : Char) : List Char → List (List Char)
  | [] => [[]]
  | c :: rest =>
    if c = sep then [] :: splitChar sep rest
    else
      match splitChar sep rest with
      | [] => [[c]]
      | h :: t => (c :: h) :: t

/-- Python `s.split(sep)` as a `String` operation. -/
def splitOnChar (sep : Char) (s : String) : List String :=
  (splitChar sep s.data).map String.mk

/-- Python `'.'.join(...)` on character lists. -/
def joinDot : List (List Char) → List Char
  | [] => []
  | [x] => x
  | x :: xs => x ++ '.' :: joinDot xs

/-! ## Version handling (`_split_version`, `_unsplit_version`, the gate) -/

/-- Model of `_split_version`: parse a dotted version string into a tuple of integers.
(Total model: faithful to the Python on strings whose segments are decimal
digit strings, the only inputs the theorems quantify over.) -/
def _split_version (version : String) : List Nat :=
  (splitChar '.' version.data).map digitsVal

/-- Model of `_unsplit_version`: join a tuple of integers with `'.'`. -/
def _unsplit_version (version : List Nat) : String :=
  String.mk (joinDot (version.map natDigits))

/-- Model of `_REQUIRED_ACTOOL_VERSION = _split_version('26.0')`. -/
def _REQUIRED_ACTOOL_VERSION : List Nat := _split_version "26.0"

/-- Python tuple `<` on integer tuples: lexicographic, a strict prefix is
smaller. -/
def versionLt : List Nat → List Nat → Bool
  | [], [] => false
  | [], _ :: _ => true
  | _ :: _, [] => false
  | a :: as, b :: bs => if a < b then true else if b < a then false else versionLt as bs

/-- The exception message raised by `_verify_actool_version`. -/
def tooOldMessage (detected required : String) : String :=
  "actool is too old; it is version " ++ detected ++ " but at least version " ++
  required ++ " is required"

/-- Model of `_verify_actool_version`, parameterised by the `short-bundle-version`
string reported by `actool`'s version query (the one external input).
`some msg` models raising `AssetCatalogException(msg)`; `none` is a pass. -/
def _verify_actool_version (reported : String) : Option String :=
  let version := _split_version reported
  if versionLt version _REQUIRED_ACTOOL_VERSION then
    some (tooOldMessage (_unsplit_version version)
      (_unsplit_version _REQUIRED_ACTOOL_VERSION))
  else none

/-! ## Path utilities (`pathlib.PurePath.suffix/.stem/.name`)

`_process_path` receives a `pathlib.Path`; only the final path component
matters for suffix/stem, and output files are routed by their final
component. -/

/-- Index of the last `'.'` in a character list, if any
(Python `str.rfind('.')`). -/
def lastDotIdx : List Char → Option Nat
  | [] => none
  | c :: rest =>
    match lastDotIdx rest with
    | some i => some (i + 1)
    | none => if c = '.' then some 0 else none

/-- The `pathlib` `suffix` of a final path component: the part from the last dot,
but only when that dot is neither the first nor the last character. -/
def pathSuffix (name : String) : String :=
  match lastDotIdx name.data with
  | some i =>
    if 0 < i ∧ i < name.data.length - 1 then String.mk (name.data.drop i) else ""
  | none => ""

/-- The `pathlib` `stem` of a final path component: the component without its
`pathSuffix`. -/
def pathStem (name : String) : String :=
  match lastDotIdx name.data with
  | some i =>
    if 0 < i ∧ i < name.data.length - 1 then String.mk (name.data.take i) else name
  | none => name

/-- Model of `pathlib.Path(p).name`: the last component of the path, with empty and
`'.'` components dropped. -/
def pathName (p : String) : String :=
  (((splitOnChar '/' p).filter (fun c => c != "" && c != ".")).getLast?).getD ""

/-! ## The `actool` invocation result

The structured plist that `actool` writes to standard output, together with
the process return code and captured standard error. Collections are
optional (`none` models an absent key) lists of diagnostics; the code only
ever inspects the `'type'` field of a document warning, so a diagnostic is
modelled as its `type` plus an opaque `description`. -/

/-- One diagnostic entry of an `actool` collection. -/
structure Diag where
  type : String
  description : String
deriving DecidableEq, Repr

/-- The `com.apple.actool.compilation-results` record. -/
structure CompilationResults where
  /-- The `output-files` key: the list of paths `actool` reports writing. -/
  outputFiles : Option (List String)
deriving DecidableEq, Repr

/-- The parsed structured compiler output plus process return code and
captured standard error. -/
structure InvocationResult where
  returncode : Int
  errors : Option (List Diag)
  documentErrors : Option (List Diag)
  warnings : Option (List Diag)
  documentWarnings : Option (List Diag)
  notices : Option (List Diag)
  documentNotices : Option (List Diag)
  compilationResults : Option CompilationResults
  stderr : String
deriving DecidableEq, Repr

/-- The `failures` dict built by `_process_path`: one optional entry per
reason key (`'return code'`, `'errors'`, `'document errors'`, `'warnings'`,
`'document warnings'`, `'notices'`, `'document notices'`, `'stderr'`). -/
structure Failures where
  returnCode : Option String
  errors : Option (List Diag)
  documentErrors : Option (List Diag)
  warnings : Option (List Diag)
  documentWarnings : Option (List Diag)
  notices : Option (List Diag)
  documentNotices : Option (List Diag)
  stderr : Option String
deriving DecidableEq, Repr

/-- The local `collect_failures` helper: look the collection up, apply the
filter when both the value and the filter are present, and record the value
unless it is falsy (absent key or empty list). Returns the entry stored into
the `failures` dict, `none` when no entry is stored. -/
def collect_failures (value : Option (List Diag))
    (fil : Option (List Diag → List Diag)) : Option (List Diag) :=
  let value := match value, fil with
    | some v, some f => some (f v)
    | v, _ => v
  match value with
  | some [] => none
  | v => v

/-- The filter passed for `com.apple.actool.document.warnings`: drop warnings
whose `type` is `'Ambiguous Content'`. -/
def ambiguousFilter (l : List Diag) : List Diag :=
  l.filter (fun w => w.type != "Ambiguous Content")

/-- Classification (spec §4.4): the `failures` dict as populated by
`_process_path` lines 186–222, before `stderr` is attached. -/
def classify (r : InvocationResult) : Failures where
  returnCode := if r.returncode != 0 then some (toString r.returncode) else none
  errors := collect_failures r.errors none
  documentErrors := collect_failures r.documentErrors none
  warnings := collect_failures r.warnings none
  documentWarnings := collect_failures r.documentWarnings (some ambiguousFilter)
  notices := collect_failures r.notices none
  documentNotices := collect_failures r.documentNotices none
  stderr := none

/-- Python `if failures:` — the dict is non-empty. -/
def Failures.isFailure (f : Failures) : Bool :=
  f.returnCode.isSome || f.errors.isSome || f.documentErrors.isSome ||
  f.warnings.isSome || f.documentWarnings.isSome || f.notices.isSome ||
  f.documentNotices.isSome || f.stderr.isSome

/-- Model of `failures['stderr'] = stderr` before raising. -/
def Failures.withStderr (f : Failures) (s : String) : Failures :=
  { f with stderr := some s }

/-! ## The orchestrator (`_process_path`)

The function's observable behaviour is modelled as the ordered list of
destination-file copies it performs (`shutil.copyfile` calls into the
catalog's parent directory) together with the exception it raises, if any.
The staging `copytree` into the scratch directory and the `actool` run
itself are external effects summarised by the `InvocationResult` argument;
destinations live in the catalog's parent directory, so a copy is recorded
as the source path plus the destination file name. -/

/-- One `shutil.copyfile(output_file, source_dir / dest)` call. -/
structure CopyOp where
  src : String
  dest : String
deriving DecidableEq, Repr

/-- The exceptions `_process_path` can raise. -/
inductive ProcessError where
  /-- A Python `ValueError` (malformed catalog path). -/
  | valueError (msg : String)
  /-- An `AssetCatalogException` with a plain message. -/
  | assetCatalog (msg : String)
  /-- `AssetCatalogException(f'actool failed; {failures}')`: carries the
  structured failure report. -/
  | actoolFailed (f : Failures)
deriving DecidableEq, Repr

/-- The `'Unexpected output file: {output_file}'` message. -/
def unexpectedMessage (f : String) : String :=
  "Unexpected output file: " ++ f

/-- The wrong-count message (the Python f-string additionally interpolates
the file list itself; only the count is modelled). -/
def countMessage (n : Nat) : String :=
  "expected actool to output 3 files, but it instead output " ++
  toString n ++ " files"

/-- The relocation loop over `output_files` (lines 244–263): route each
reported file by its final component, accumulating copies in order; an
unrecognised name raises, keeping the copies already made. -/
def relocate (nameTag : String) : List String → List CopyOp × Option ProcessError
  | [] => ([], none)
  | f :: rest =>
    if pathName f == "partial.plist" then relocate nameTag rest
    else if pathName f == "AppIcon.icns" then
      let r := relocate nameTag rest
      ({ src := f, dest := "app" ++ nameTag ++ ".icns" } :: r.1, r.2)
    else if pathName f == "Assets.car" then
      let r := relocate nameTag rest
      ({ src := f, dest := "Assets" ++ nameTag ++ ".car" } :: r.1, r.2)
    else ([], some (.assetCatalog (unexpectedMessage f)))

/-- The `'_beta'`-style channel tag derived from the catalog's stem
(line 120); `""` when there is no tag. -/
def catalogNameTag (name : String) : String :=
  let name_parts := splitOnChar '_' (pathStem name)
  if name_parts.length == 2 then "_" ++ name_parts.getD 1 "" else ""

/-- Model of `_process_path`, for one catalog whose final path component is `name`,
given the `actool` invocation result `r`: the destination copies performed
and the exception raised, if any. -/
def _process_path (name : String) (r : InvocationResult) :
    List CopyOp × Option ProcessError :=
  if pathSuffix name != ".xcassets" then
    ([], some (.valueError "Asset catalog filename must have .xcassets suffix"))
  else
    let name_parts := splitOnChar '_' (pathStem name)
    if name_parts.length > 2 then
      ([], some (.valueError "Asset catalog filename must have at most one _"))
    else
      let name_tag := catalogNameTag name
      let failures := classify r
      if failures.isFailure then
        ([], some (.actoolFailed (failures.withStderr r.stderr)))
      else
        match r.compilationResults with
        | none => ([], some (.assetCatalog "actool had no compilation results"))
        | some cr =>
          match cr.outputFiles with
          | none => ([], some (.assetCatalog "actool had no output files"))
          | some output_files =>
            if output_files.length != 3 then
              ([], some (.assetCatalog (countMessage output_files.length)))
            else relocate name_tag output_files

/-! ## Deployment-target resolution (`_min_deployment_target`)

The Python reads `//build/config/mac/mac_sdk.gni` and runs
`re.finditer(r'^\s*mac_deployment_target\s*=\s*"(.*)"(?:\s*#.*)?$', text,
re.MULTILINE)`, then unpacks the iterator into exactly one match
(`match, = ...`), which raises on zero or several matches. The pattern never
crosses a newline, so the text is modelled as a list of lines (character
lists) and the regex as a per-line matcher; `\s` is modelled as the ASCII
whitespace class. -/

/-- ASCII members of the regex `\s` class. -/
def isPySpace (c : Char) : Bool :=
  c = ' ' || c = '\t' || c = '\n' || c = '\r' || c = '\x0b' || c = '\x0c'

/-- Strip an expected leading character sequence, returning the remainder. -/
def stripLeading : List Char → List Char → Option (List Char)
  | [], l => some l
  | _ :: _, [] => none
  | p :: ps, c :: cs => if c = p then stripLeading ps cs else none

/-- Does a line remainder match the trailing `(?:\s*#.*)?$` of the pattern:
empty, or optional whitespace followed by a `#` comment? -/
def tailOk (l : List Char) : Bool :=
  l.isEmpty ||
    match l.dropWhile isPySpace with
    | '#' :: _ => true
    | _ => false

/-- The greedy `(.*)"` of the pattern applied to the text after the opening
quote: capture up to the rightmost `'"'` whose remainder satisfies
`tailOk`. -/
def grabQuoted : List Char → Option (List Char)
  | [] => none
  | c :: rest =>
    match grabQuoted rest with
    | some cap => some (c :: cap)
    | none => if c == '"' && tailOk rest then some [] else none

/-- The literal key of the pattern. -/
def mdtKey : List Char := "mac_deployment_target".data

/-- One-line matcher for
`^\s*mac_deployment_target\s*=\s*"(.*)"(?:\s*#.*)?$`, returning the capture
group. -/
def matchLine (line : List Char) : Option (List Char) :=
  match stripLeading mdtKey (line.dropWhile isPySpace) with
  | none => none
  | some l1 =>
    match l1.dropWhile isPySpace with
    | '=' :: l2 =>
      match l2.dropWhile isPySpace with
      | '"' :: rest => grabQuoted rest
      | _ => none
    | _ => none

/-- Model of `_min_deployment_target`, over the configuration file's lines: the
`match, = re.finditer(...)` unpacking yields the single match's capture
group and raises (`none`) when there are zero or several matches. -/
def _min_deployment_target (lines : List (List Char)) : Option (List Char) :=
  match lines.filterMap matchLine with
  | [v] => some v
  | _ => none

/-! ## Concrete invocation results used by witnesses -/

/-- Scenario C/F-style result: clean collections except one allow-listed
document warning, and the three expected output files. -/
def egOk : InvocationResult where
  returncode := 0
  errors := none
  documentErrors := none
  warnings := none
  documentWarnings := some [{ type := "Ambiguous Content", description := "d" }]
  notices := none
  documentNotices := none
  compilationResults :=
    some ⟨some ["/t/partial.plist", "/t/AppIcon.icns", "/t/Assets.car"]⟩
  stderr := "spew"

/-- Scenario E-style result: a single notice, return code 0, otherwise
clean. -/
def egNotice : InvocationResult :=
  { egOk with notices := some [{ type := "t", description := "missing" }] }

/-- A result failing for several reasons at once: non-zero return code, one
error, and one non-allow-listed document warning. -/
def egMulti : InvocationResult :=
  { egOk with
    returncode := 1
    errors := some [{ type := "e", description := "boom" }]
    documentWarnings := some [{ type := "Ambiguous Content", description := "d" },
                              { type := "Other", description := "w" }]
    stderr := "spew2" }

/-- A result whose three output files are all named `partial.plist`. -/
def egTriplePlist : InvocationResult :=
  { egOk with
    documentWarnings := none
    compilationResults :=
      some ⟨some ["a/partial.plist", "b/partial.plist", "c/partial.plist"]⟩
    stderr := "" }

/-! ## Statement vehicles -/

/-- The three output-file names the relocation loop recognises. -/
def recognizedName (f : String) : Prop :=
  pathName f = "partial.plist" ∨ pathName f = "AppIcon.icns" ∨
  pathName f = "Assets.car"

instance (f : String) : Decidable (recognizedName f) := by
  unfold recognizedName; infer_instance

/-- Routing of one recognised output file: the copy it produces, `none` for
the ignored transient plist. -/
def routeOp (nameTag f : String) : Option CopyOp :=
  if pathName f = "AppIcon.icns" then
    some { src := f, dest := "app" ++ nameTag ++ ".icns" }
  else if pathName f = "Assets.car" then
    some { src := f, dest := "Assets" ++ nameTag ++ ".car" }
  else none

/-- A nonempty decimal-digit string in canonical form (no leading zero
except `"0"` itself). -/
def CanonicalDecimal (s : String) : Prop :=
  s.data ≠ [] ∧ (∀ c ∈ s.data, isDigitChar c) ∧
  (s.data.head? = some '0' → s.data = ['0'])

instance (s : String) : Decidable (CanonicalDecimal s) := by
  unfold CanonicalDecimal; infer_instance

/-! ## Helper lemmas: classification -/

theorem collect_failures_plain_eq_none (x : Option (List Diag))
    (h : x.getD [] = []) : collect_failures x none = none := by
  cases x with
  | none => rfl
  | some l => cases l with
    | nil => rfl
    | cons d ds => simp at h

theorem collect_failures_plain_eq_some (x : Option (List Diag))
    (h : x.getD [] ≠ []) : collect_failures x none = some (x.getD []) := by
  cases x with
  | none => simp at h
  | some l => cases l with
    | nil => simp at h
    | cons d ds => rfl

theorem collect_failures_plain_isSome (x : Option (List Diag)) :
    (collect_failures x none).isSome = true ↔ x.getD [] ≠ [] := by
  by_cases h : x.getD [] = []
  · rw [collect_failures_plain_eq_none x h]
    simp [h]
  · rw [collect_failures_plain_eq_some x h]
    simp [h]

theorem collect_failures_amb_eq_none (x : Option (List Diag))
    (h : ambiguousFilter (x.getD []) = []) :
    collect_failures x (some ambiguousFilter) = none := by
  cases x with
  | none => rfl
  | some l =>
    simp only [Option.getD_some] at h
    simp only [collect_failures, h]

theorem collect_failures_amb_eq_some (x : Option (List Diag))
    (h : ambiguousFilter (x.getD []) ≠ []) :
    collect_failures x (some ambiguousFilter) = some (ambiguousFilter (x.getD [])) := by
  cases x with
  | none => simp [ambiguousFilter] at h
  | some l =>
    simp only [Option.getD_some] at h ⊢
    cases hf : ambiguousFilter l with
    | nil => exact absurd hf h
    | cons d ds => simp only [collect_failures, hf]

theorem collect_failures_amb_isSome (x : Option (List Diag)) :
    (collect_failures x (some ambiguousFilter)).isSome = true ↔
      ambiguousFilter (x.getD []) ≠ [] := by
  by_cases h : ambiguousFilter (x.getD []) = []
  · rw [collect_failures_amb_eq_none x h]
    simp [h]
  · rw [collect_failures_amb_eq_some x h]
    simp [h]

theorem ambiguousFilter_ne_nil (l : List Diag) :
    ambiguousFilter l ≠ [] ↔ ∃ w ∈ l, w.type ≠ "Ambiguous Content" := by
  simp only [ambiguousFilter, ne_eq, List.filter_eq_nil_iff, bne_iff_ne, not_forall]
  constructor
  · rintro ⟨w, hw, ht⟩
    exact ⟨w, hw, not_not.mp ht⟩
  · rintro ⟨w, hw, ht⟩
    exact ⟨w, hw, not_not.mpr ht⟩

theorem classify_returnCode_isSome (r : InvocationResult) :
    ((classify r).returnCode).isSome = true ↔ r.returncode ≠ 0 := by
  simp only [classify]
  by_cases h : r.returncode = 0
  · simp [h]
  · simp [h, bne_iff_ne.mpr h]

/-! ## Helper lemmas: relocation -/

theorem relocate_all_recognized (tag : String) (fs : List String)
    (h : ∀ f ∈ fs, recognizedName f) :
    relocate tag fs = (fs.filterMap (routeOp tag), none) := by
  induction fs with
  | nil => rfl
  | cons f rest ih =>
    have hrest := ih (fun g hg => h g (List.mem_cons_of_mem f hg))
    rcases h f (List.mem_cons_self f rest) with hf | hf | hf <;>
      simp [relocate, hf, List.filterMap_cons, routeOp, hrest]

theorem relocate_unrecognized (tag : String) (fs : List String)
    (h : ∃ f ∈ fs, ¬recognizedName f) :
    ∃ g ∈ fs, ¬recognizedName g ∧
      (relocate tag fs).2 = some (.assetCatalog (unexpectedMessage g)) := by
  induction fs with
  | nil => simp at h
  | cons f rest ih =>
    by_cases hf : recognizedName f
    · have hrest : ∃ g ∈ rest, ¬recognizedName g := by
        rcases h with ⟨g, hg, hgn⟩
        rcases List.mem_cons.mp hg with rfl | hg
        · exact absurd hf hgn
        · exact ⟨g, hg, hgn⟩
      rcases ih hrest with ⟨g, hg, hgn, heq⟩
      refine ⟨g, List.mem_cons_of_mem f hg, hgn, ?_⟩
      rcases hf with hf | hf | hf <;> simp [relocate, hf] <;> exact heq
    · refine ⟨f, List.mem_cons_self f rest, hf, ?_⟩
      rw [recognizedName, not_or, not_or] at hf
      obtain ⟨h1, h2, h3⟩ := hf
      simp only [relocate, beq_iff_eq, h1, h2, h3, if_false]

theorem relocate_dest_shape (tag : String) (fs : List String) :
    ∀ op ∈ (relocate tag fs).1,
      op.dest = "app" ++ tag ++ ".icns" ∨ op.dest = "Assets" ++ tag ++ ".car" := by
  induction fs with
  | nil => simp [relocate]
  | cons f rest ih =>
    intro op hop
    by_cases h1 : pathName f == "partial.plist"
    · rw [relocate, if_pos h1] at hop
      exact ih op hop
    · by_cases h2 : pathName f == "AppIcon.icns"
      · rw [relocate, if_neg h1, if_pos h2] at hop
        rcases List.mem_cons.mp hop with rfl | hop
        · exact Or.inl rfl
        · exact ih op hop
      · by_cases h3 : pathName f == "Assets.car"
        · rw [relocate, if_neg h1, if_neg h2, if_pos h3] at hop
          rcases List.mem_cons.mp hop with rfl | hop
          · exact Or.inr rfl
          · exact ih op hop
        · rw [relocate, if_neg h1, if_neg h2, if_neg h3] at hop
          simp at hop

/-! ## Helper lemmas: `_process_path` branch reductions -/

theorem process_path_bad_suffix (name : String) (r : InvocationResult)
    (h : pathSuffix name ≠ ".xcassets") :
    _process_path name r =
      ([], some (.valueError "Asset catalog filename must have .xcassets suffix")) := by
  rw [_process_path, if_pos (bne_iff_ne.mpr h)]

theorem process_path_too_many_parts (name : String) (r : InvocationResult)
    (hs : pathSuffix name = ".xcassets")
    (hp : (splitOnChar '_' (pathStem name)).length > 2) :
    _process_path name r =
      ([], some (.valueError "Asset catalog filename must have at most one _")) := by
  simp [_process_path, hs, hp]

theorem process_path_actool_failed (name : String) (r : InvocationResult)
    (hs : pathSuffix name = ".xcassets")
    (hp : (splitOnChar '_' (pathStem name)).length ≤ 2)
    (h : (classify r).isFailure = true) :
    _process_path name r =
      ([], some (.actoolFailed ((classify r).withStderr r.stderr))) := by
  simp [_process_path, hs, Nat.not_lt.mpr hp, h]

theorem process_path_success_reduces (name : String) (r : InvocationResult)
    (cr : CompilationResults) (fs : List String)
    (hs : pathSuffix name = ".xcassets")
    (hp : (splitOnChar '_' (pathStem name)).length ≤ 2)
    (hpass : (classify r).isFailure = false)
    (hcr : r.compilationResults = some cr)
    (hof : cr.outputFiles = some fs) :
    _process_path name r =
      if fs.length ≠ 3 then ([], some (.assetCatalog (countMessage fs.length)))
      else relocate (catalogNameTag name) fs := by
  simp only [_process_path, hs, bne_self_eq_false, Bool.false_eq_true, if_false,
    hpass, hcr, hof]
  rw [if_neg (Nat.not_lt.mpr hp)]
  by_cases hl : fs.length = 3
  · simp [hl]
  · simp [hl, bne_iff_ne.mpr hl]

/-! ## Claim theorems -/

theorem isSome_ite_some (b : Bool) (s : String) :
    (if b = true then some s else none).isSome = b := by
  cases b <;> simp

theorem isSome_ite_some_iff (p : Prop) [Decidable p] (s : String) :
    ((if p then some s else none).isSome = true) ↔ p := by
  split <;> simp [*]

/-- C1: classification fails iff the return code is non-zero, one of the
error/warning/notice collections is present and non-empty, or a document
warning has a type other than `'Ambiguous Content'`; an absent collection is
treated the same as an empty one. -/
theorem classify_fails_iff (r : InvocationResult) :
    (classify r).isFailure = true ↔
      (r.returncode ≠ 0 ∨
       r.errors.getD [] ≠ [] ∨
       r.documentErrors.getD [] ≠ [] ∨
       r.warnings.getD [] ≠ [] ∨
       r.notices.getD [] ≠ [] ∨
       r.documentNotices.getD [] ≠ [] ∨
       ∃ w ∈ r.documentWarnings.getD [], w.type ≠ "Ambiguous Content") := by
  simp only [Failures.isFailure, classify, Bool.or_eq_true, bne_iff_ne,
    isSome_ite_some_iff, collect_failures_plain_isSome,
    collect_failures_amb_isSome, ambiguousFilter_ne_nil, Option.isSome_none,
    Bool.false_eq_true, or_false]
  constructor
  · rintro ((((((h | h) | h) | h) | h) | h) | h)
    · exact Or.inl h
    · exact Or.inr (Or.inl h)
    · exact Or.inr (Or.inr (Or.inl h))
    · exact Or.inr (Or.inr (Or.inr (Or.inl h)))
    · exact Or.inr (Or.inr (Or.inr (Or.inr (Or.inr (Or.inr h)))))
    · exact Or.inr (Or.inr (Or.inr (Or.inr (Or.inl h))))
    · exact Or.inr (Or.inr (Or.inr (Or.inr (Or.inr (Or.inl h)))))
  · rintro (h | h | h | h | h | h | h)
    · exact Or.inl (Or.inl (Or.inl (Or.inl (Or.inl (Or.inl h)))))
    · exact Or.inl (Or.inl (Or.inl (Or.inl (Or.inl (Or.inr h)))))
    · exact Or.inl (Or.inl (Or.inl (Or.inl (Or.inr h))))
    · exact Or.inl (Or.inl (Or.inl (Or.inr h)))
    · exact Or.inl (Or.inr h)
    · exact Or.inr h
    · exact Or.inl (Or.inl (Or.inr h))

/-- C3: whenever classification fails, `_process_path` raises and performs
no destination-file copy at all, for every catalog name. -/
theorem no_copies_on_classification_failure (name : String)
    (r : InvocationResult) (h : (classify r).isFailure = true) :
    (_process_path name r).1 = [] ∧ ((_process_path name r).2).isSome = true := by
  by_cases h1 : pathSuffix name = ".xcassets"
  · by_cases h2 : (splitOnChar '_' (pathStem name)).length ≤ 2
    · rw [process_path_actool_failed name r h1 h2 h]
      exact ⟨rfl, rfl⟩
    · rw [process_path_too_many_parts name r h1 (Nat.not_le.mp h2)]
      exact ⟨rfl, rfl⟩
  · rw [process_path_bad_suffix name r h1]
    exact ⟨rfl, rfl⟩

/-- Witness for C3 at spec scenario E: a single notice with return code 0
and otherwise clean collections fails with no destination writes. -/
theorem no_copies_on_classification_failure_witness :
    (classify egNotice).isFailure = true ∧
    (_process_path "Foo.xcassets" egNotice).1 = [] ∧
    ((_process_path "Foo.xcassets" egNotice).2).isSome = true :=
  ⟨by decide, no_copies_on_classification_failure "Foo.xcassets" egNotice (by decide)⟩

/-- C5: the gate compares the reported version, parsed as an integer tuple,
with the required minimum `(26, 0)`; below the minimum it raises a message
carrying both the detected and required versions, otherwise it passes
(e.g. for `"27.0"`). -/
theorem actool_version_gate (s : String) :
    _REQUIRED_ACTOOL_VERSION = [26, 0] ∧
    (versionLt (_split_version s) _REQUIRED_ACTOOL_VERSION = true →
      _verify_actool_version s =
        some (tooOldMessage (_unsplit_version (_split_version s))
          (_unsplit_version _REQUIRED_ACTOOL_VERSION))) ∧
    (versionLt (_split_version s) _REQUIRED_ACTOOL_VERSION = false →
      _verify_actool_version s = none) ∧
    _verify_actool_version "27.0" = none := by
  refine ⟨by decide, fun h => ?_, fun h => ?_, by decide⟩
  · simp [_verify_actool_version, h]
  · simp [_verify_actool_version, h]

/-- Witness for C5 at spec scenario B: version `"25.3"` is below the
minimum and the raised message carries both versions. -/
theorem actool_version_gate_witness :
    versionLt (_split_version "25.3") _REQUIRED_ACTOOL_VERSION = true ∧
    _verify_actool_version "25.3" = some (tooOldMessage "25.3" "26.0") := by
  have h := (actool_version_gate "25.3").2.1 (by decide)
  refine ⟨by decide, ?_⟩
  rw [h]
  decide

/-- C6: a catalog path without the `.xcassets` suffix, or whose stem splits
on `'_'` into more than two segments, is rejected with the malformed-path
error before the compiler result is even consulted (the result is the same
for every `InvocationResult`), with no copies performed. -/
theorem malformed_path_rejected (name : String) (r : InvocationResult) :
    (pathSuffix name ≠ ".xcassets" →
      _process_path name r =
        ([], some (.valueError "Asset catalog filename must have .xcassets suffix"))) ∧
    (pathSuffix name = ".xcassets" →
      (splitOnChar '_' (pathStem name)).length > 2 →
      _process_path name r =
        ([], some (.valueError "Asset catalog filename must have at most one _"))) :=
  ⟨fun h => process_path_bad_suffix name r h,
   fun hs hp => process_path_too_many_parts name r hs hp⟩

/-- Witness for C6 at a wrong-suffix path and at a two-underscore path. -/
theorem malformed_path_rejected_witness :
    pathSuffix "Foo.txt" ≠ ".xcassets" ∧
    _process_path "Foo.txt" egOk =
      ([], some (.valueError "Asset catalog filename must have .xcassets suffix")) ∧
    (splitOnChar '_' (pathStem "A_b_c.xcassets")).length > 2 ∧
    _process_path "A_b_c.xcassets" egOk =
      ([], some (.valueError "Asset catalog filename must have at most one _")) :=
  ⟨by decide, (malformed_path_rejected "Foo.txt" egOk).1 (by decide), by decide,
   (malformed_path_rejected "A_b_c.xcassets" egOk).2 (by decide) (by decide)⟩

/-- C10: with return code 0, clean collections, and three output files all
named `partial.plist`, `_process_path` completes without error and writes
zero destination files: the count and per-name checks do not require each
expected name to appear exactly once. -/
theorem triple_partial_plist_success :
    _process_path "Assets.xcassets" egTriplePlist = ([], none) := by decide

theorem process_path_no_results (name : String) (r : InvocationResult)
    (hs : pathSuffix name = ".xcassets")
    (hp : (splitOnChar '_' (pathStem name)).length ≤ 2)
    (hpass : (classify r).isFailure = false)
    (hcr : r.compilationResults = none) :
    _process_path name r =
      ([], some (.assetCatalog "actool had no compilation results")) := by
  simp [_process_path, hs, Nat.not_lt.mpr hp, hpass, hcr]

theorem process_path_no_output_files (name : String) (r : InvocationResult)
    (cr : CompilationResults)
    (hs : pathSuffix name = ".xcassets")
    (hp : (splitOnChar '_' (pathStem name)).length ≤ 2)
    (hpass : (classify r).isFailure = false)
    (hcr : r.compilationResults = some cr)
    (hof : cr.outputFiles = none) :
    _process_path name r =
      ([], some (.assetCatalog "actool had no output files")) := by
  simp [_process_path, hs, Nat.not_lt.mpr hp, hpass, hcr, hof]

/-- Every copy `_process_path` performs was produced by the relocation loop
with the catalog's own name tag. -/
theorem process_path_dest_shape (name : String) (r : InvocationResult) :
    ∀ op ∈ (_process_path name r).1,
      op.dest = "app" ++ catalogNameTag name ++ ".icns" ∨
      op.dest = "Assets" ++ catalogNameTag name ++ ".car" := by
  intro op hop
  by_cases h1 : pathSuffix name = ".xcassets"
  · by_cases h2 : (splitOnChar '_' (pathStem name)).length ≤ 2
    · by_cases h3 : (classify r).isFailure = true
      · rw [process_path_actool_failed name r h1 h2 h3] at hop
        simp at hop
      · have h3' : (classify r).isFailure = false := by
          simpa using h3
        cases hcr : r.compilationResults with
        | none =>
          rw [process_path_no_results name r h1 h2 h3' hcr] at hop
          simp at hop
        | some cr =>
          cases hof : cr.outputFiles with
          | none =>
            rw [process_path_no_output_files name r cr h1 h2 h3' hcr hof] at hop
            simp at hop
          | some fs =>
            rw [process_path_success_reduces name r cr fs h1 h2 h3' hcr hof] at hop
            by_cases hl : fs.length ≠ 3
            · rw [if_pos hl] at hop
              simp at hop
            · rw [if_neg hl] at hop
              exact relocate_dest_shape (catalogNameTag name) fs op hop
    · rw [process_path_too_many_parts name r h1 (Nat.not_le.mp h2)] at hop
      simp at hop
  · rw [process_path_bad_suffix name r h1] at hop
    simp at hop

/-- C2: with classification passed and the output-file list present, a count
other than 3 fails; with exactly 3 entries each entry is routed by its final
component (`partial.plist` ignored, `AppIcon.icns` copied to
`app<NameTag>.icns`, `Assets.car` copied to `Assets<NameTag>.car`), and any
unrecognised name fails even though classification already passed. -/
theorem success_path_output_routing (name : String) (r : InvocationResult)
    (cr : CompilationResults) (fs : List String)
    (hs : pathSuffix name = ".xcassets")
    (hp : (splitOnChar '_' (pathStem name)).length ≤ 2)
    (hpass : (classify r).isFailure = false)
    (hcr : r.compilationResults = some cr)
    (hof : cr.outputFiles = some fs) :
    (fs.length ≠ 3 →
      _process_path name r = ([], some (.assetCatalog (countMessage fs.length)))) ∧
    (fs.length = 3 → (∀ f ∈ fs, recognizedName f) →
      _process_path name r =
        (fs.filterMap (routeOp (catalogNameTag name)), none)) ∧
    (fs.length = 3 → (∃ f ∈ fs, ¬recognizedName f) →
      ∃ g ∈ fs, ¬recognizedName g ∧
        (_process_path name r).2 = some (.assetCatalog (unexpectedMessage g))) := by
  have hred := process_path_success_reduces name r cr fs hs hp hpass hcr hof
  refine ⟨fun hl => ?_, fun hl hrec => ?_, fun hl hbad => ?_⟩
  · rw [hred, if_pos hl]
  · rw [hred, if_neg (by simp [hl])]
    exact relocate_all_recognized (catalogNameTag name) fs hrec
  · obtain ⟨g, hg, hgn, heq⟩ := relocate_unrecognized (catalogNameTag name) fs hbad
    refine ⟨g, hg, hgn, ?_⟩
    rw [hred, if_neg (by simp [hl])]
    exact heq

/-- Witness for C2 at spec scenario C/F: clean result (with one allow-listed
document warning) and the three expected files produce exactly the two
destination copies. -/
theorem success_path_output_routing_witness :
    (classify egOk).isFailure = false ∧
    _process_path "Foo.xcassets" egOk =
      ([{ src := "/t/AppIcon.icns", dest := "app.icns" },
        { src := "/t/Assets.car", dest := "Assets.car" }], none) := by
  have h := (success_path_output_routing "Foo.xcassets" egOk
      ⟨some ["/t/partial.plist", "/t/AppIcon.icns", "/t/Assets.car"]⟩
      ["/t/partial.plist", "/t/AppIcon.icns", "/t/Assets.car"]
      (by decide) (by decide) (by decide) rfl rfl).2.1 (by decide) (by decide)
  refine ⟨by decide, ?_⟩
  rw [h]
  decide

/-- C4: on every classification failure (with a well-formed catalog name)
the raised failure carries a report enumerating every contributing reason —
return code, each non-empty collection verbatim, the filtered document
warnings — with the captured standard-error stream attached. -/
theorem failure_report_enumerates_reasons (name : String) (r : InvocationResult)
    (hs : pathSuffix name = ".xcassets")
    (hp : (splitOnChar '_' (pathStem name)).length ≤ 2)
    (h : (classify r).isFailure = true) :
    ∃ F : Failures,
      (_process_path name r).2 = some (.actoolFailed F) ∧
      F.stderr = some r.stderr ∧
      (r.returncode = 0 → F.returnCode = none) ∧
      (r.returncode ≠ 0 → F.returnCode = some (toString r.returncode)) ∧
      (r.errors.getD [] = [] → F.errors = none) ∧
      (r.errors.getD [] ≠ [] → F.errors = some (r.errors.getD [])) ∧
      (r.documentErrors.getD [] = [] → F.documentErrors = none) ∧
      (r.documentErrors.getD [] ≠ [] →
        F.documentErrors = some (r.documentErrors.getD [])) ∧
      (r.warnings.getD [] = [] → F.warnings = none) ∧
      (r.warnings.getD [] ≠ [] → F.warnings = some (r.warnings.getD [])) ∧
      (ambiguousFilter (r.documentWarnings.getD []) = [] →
        F.documentWarnings = none) ∧
      (ambiguousFilter (r.documentWarnings.getD []) ≠ [] →
        F.documentWarnings = some (ambiguousFilter (r.documentWarnings.getD []))) ∧
      (r.notices.getD [] = [] → F.notices = none) ∧
      (r.notices.getD [] ≠ [] → F.notices = some (r.notices.getD [])) ∧
      (r.documentNotices.getD [] = [] → F.documentNotices = none) ∧
      (r.documentNotices.getD [] ≠ [] →
        F.documentNotices = some (r.documentNotices.getD [])) := by
  refine ⟨(classify r).withStderr r.stderr, ?_, rfl, ?_, ?_, ?_, ?_, ?_, ?_, ?_,
    ?_, ?_, ?_, ?_, ?_, ?_, ?_⟩
  · rw [process_path_actool_failed name r hs hp h]
  · intro h0
    simp [Failures.withStderr, classify, h0]
  · intro h0
    simp [Failures.withStderr, classify, h0]
  · intro h0
    simp [Failures.withStderr, classify, collect_failures_plain_eq_none _ h0]
  · intro h0
    simp [Failures.withStderr, classify, collect_failures_plain_eq_some _ h0]
  · intro h0
    simp [Failures.withStderr, classify, collect_failures_plain_eq_none _ h0]
  · intro h0
    simp [Failures.withStderr, classify, collect_failures_plain_eq_some _ h0]
  · intro h0
    simp [Failures.withStderr, classify, collect_failures_plain_eq_none _ h0]
  · intro h0
    simp [Failures.withStderr, classify, collect_failures_plain_eq_some _ h0]
  · intro h0
    simp [Failures.withStderr, classify, collect_failures_amb_eq_none _ h0]
  · intro h0
    simp [Failures.withStderr, classify, collect_failures_amb_eq_some _ h0]
  · intro h0
    simp [Failures.withStderr, classify, collect_failures_plain_eq_none _ h0]
  · intro h0
    simp [Failures.withStderr, classify, collect_failures_plain_eq_some _ h0]
  · intro h0
    simp [Failures.withStderr, classify, collect_failures_plain_eq_none _ h0]
  · intro h0
    simp [Failures.withStderr, classify, collect_failures_plain_eq_some _ h0]

/-- Witness for C4 at a result failing for three reasons at once. -/
theorem failure_report_enumerates_reasons_witness :
    ∃ F : Failures,
      (_process_path "Foo.xcassets" egMulti).2 = some (.actoolFailed F) ∧
      F.stderr = some "spew2" ∧
      F.returnCode = some "1" ∧
      F.errors = some [{ type := "e", description := "boom" }] ∧
      F.documentWarnings = some [{ type := "Other", description := "w" }] := by
  obtain ⟨F, h1, h2, _, h4, _, h6, _, _, _, _, _, h12, _, _, _, _⟩ :=
    failure_report_enumerates_reasons "Foo.xcassets" egMulti
      (by decide) (by decide) (by decide)
  refine ⟨F, h1, h2, h4 (by decide), ?_, ?_⟩
  · rw [h6 (by decide)]
    decide
  · rw [h12 (by decide)]
    decide

/-- C7: a stem with no `'_'` yields the empty name tag, exactly one
`'_'`-delimited suffix segment yields `'_<suffix>'`, two or more are
rejected, and the tag appears verbatim in every destination filename
`_process_path` produces. -/
theorem nametag_extraction_and_destinations (name : String)
    (r : InvocationResult) :
    ((splitOnChar '_' (pathStem name)).length = 1 → catalogNameTag name = "") ∧
    (∀ base tagSeg, splitOnChar '_' (pathStem name) = [base, tagSeg] →
      catalogNameTag name = "_" ++ tagSeg) ∧
    (pathSuffix name = ".xcassets" →
      (splitOnChar '_' (pathStem name)).length > 2 →
      (_process_path name r).2 =
        some (.valueError "Asset catalog filename must have at most one _")) ∧
    (∀ op ∈ (_process_path name r).1,
      op.dest = "app" ++ catalogNameTag name ++ ".icns" ∨
      op.dest = "Assets" ++ catalogNameTag name ++ ".car") := by
  refine ⟨fun h => ?_, fun base tagSeg h => ?_, fun hs hp => ?_, ?_⟩
  · simp [catalogNameTag, h]
  · simp [catalogNameTag, h]
  · rw [process_path_too_many_parts name r hs hp]
  · exact process_path_dest_shape name r

/-- Witness for C7 at spec scenario D: base name `Foo_beta` yields tag
`_beta` and destinations `app_beta.icns`, `Assets_beta.car`. -/
theorem nametag_extraction_and_destinations_witness :
    splitOnChar '_' (pathStem "Foo_beta.xcassets") = ["Foo", "beta"] ∧
    catalogNameTag "Foo_beta.xcassets" = "_beta" ∧
    _process_path "Foo_beta.xcassets" egOk =
      ([{ src := "/t/AppIcon.icns", dest := "app_beta.icns" },
        { src := "/t/Assets.car", dest := "Assets_beta.car" }], none) := by
  have h := (nametag_extraction_and_destinations "Foo_beta.xcassets" egOk).2.1
    "Foo" "beta" (by decide)
  refine ⟨by decide, by rw [h]; decide, by decide⟩

/-! ## Helper lemmas: decimal digits and version strings -/

theorem decDigitsAux_eq_digits (fuel : Nat) :
    ∀ n : Nat, n ≤ fuel → decDigitsAux fuel n = Nat.digits 10 n := by
  induction fuel with
  | zero =>
    intro n hn
    interval_cases n
    simp [decDigitsAux]
  | succ fuel ih =>
    intro n hn
    by_cases h0 : n = 0
    · subst h0
      simp [decDigitsAux]
    · rw [decDigitsAux, if_neg h0,
        Nat.digits_def' (by norm_num : (1 : Nat) < 10) (Nat.pos_of_ne_zero h0),
        ih (n / 10) ?_]
      have hlt : n / 10 < n := Nat.div_lt_self (Nat.pos_of_ne_zero h0) (by norm_num)
      omega

theorem decDigits_eq_digits (n : Nat) : decDigits n = Nat.digits 10 n :=
  decDigitsAux_eq_digits n n le_rfl

theorem charVal_lt (c : Char) (h : isDigitChar c = true) : charVal c < 10 := by
  simp only [isDigitChar, Bool.or_eq_true, decide_eq_true_eq] at h
  rcases h with ((((((((h | h) | h) | h) | h) | h) | h) | h) | h) | h <;>
    subst h <;> decide

theorem digitChar_charVal (c : Char) (h : isDigitChar c = true) :
    digitChar (charVal c) = c := by
  simp only [isDigitChar, Bool.or_eq_true, decide_eq_true_eq] at h
  rcases h with ((((((((h | h) | h) | h) | h) | h) | h) | h) | h) | h <;>
    subst h <;> decide

theorem charVal_ne_zero (c : Char) (h : isDigitChar c = true) (h0 : c ≠ '0') :
    charVal c ≠ 0 := by
  simp only [isDigitChar, Bool.or_eq_true, decide_eq_true_eq] at h
  rcases h with ((((((((h | h) | h) | h) | h) | h) | h) | h) | h) | h <;>
    first
      | exact absurd h h0
      | subst h; decide

/-- Python `str`/`int` roundtrip on one digit segment: printing the value of
a canonical digit string gives the string back. -/
theorem natDigits_digitsVal (l : List Char) (hne : l ≠ [])
    (hd : ∀ c ∈ l, isDigitChar c = true)
    (hz : l.head? = some '0' → l = ['0']) :
    natDigits (digitsVal l) = l := by
  by_cases h0 : l = ['0']
  · subst h0
    decide
  · obtain ⟨c, t, rfl⟩ : ∃ c t, l = c :: t := by
      cases l with
      | nil => exact absurd rfl hne
      | cons c t => exact ⟨c, t, rfl⟩
    have hc0 : c ≠ '0' := fun hc => h0 (hz (by simp [hc]))
    have hL : (c :: t).reverse.map charVal = ((c :: t).map charVal).reverse := by
      rw [List.map_reverse]
    have hlt : ∀ d ∈ ((c :: t).map charVal).reverse, d < 10 := by
      intro d hdm
      rw [List.mem_reverse, List.mem_map] at hdm
      obtain ⟨x, hx, rfl⟩ := hdm
      exact charVal_lt x (hd x hx)
    have hlast : ∀ hL' : ((c :: t).map charVal).reverse ≠ [],
        (((c :: t).map charVal).reverse).getLast hL' ≠ 0 := by
      intro hL'
      have hsome : (((c :: t).map charVal).reverse).getLast? =
          some (charVal c) := by
        rw [List.getLast?_reverse]
        simp
      rw [List.getLast?_eq_getLast _ hL'] at hsome
      have := Option.some.inj hsome
      rw [this]
      exact charVal_ne_zero c (hd c (List.mem_cons_self c t)) hc0
    have key : Nat.digits 10 (Nat.ofDigits 10 (((c :: t).map charVal).reverse)) =
        ((c :: t).map charVal).reverse :=
      Nat.digits_ofDigits 10 (by norm_num) _ hlt hlast
    have hval : digitsVal (c :: t) =
        Nat.ofDigits 10 (((c :: t).map charVal).reverse) := by
      rw [digitsVal, hL]
    have hn0 : digitsVal (c :: t) ≠ 0 := by
      intro hzero
      rw [hval] at hzero
      rw [hzero] at key
      simp at key
    rw [natDigits, if_neg hn0, decDigits_eq_digits, hval, key,
      List.map_reverse, List.reverse_reverse, List.map_map]
    have : (c :: t).map (digitChar ∘ charVal) = (c :: t).map id := by
      apply List.map_congr_left
      intro a ha
      exact digitChar_charVal a (hd a ha)
    rw [this, List.map_id]

/-! ## Helper lemmas: splitting and joining -/

theorem splitChar_no_sep (sep : Char) (l : List Char) (h : sep ∉ l) :
    splitChar sep l = [l] := by
  induction l with
  | nil => rfl
  | cons c rest ih =>
    have hc : ¬c = sep := fun hc => h (hc ▸ List.mem_cons_self c rest)
    rw [splitChar, if_neg hc, ih (fun hm => h (List.mem_cons_of_mem c hm))]

theorem splitChar_append (sep : Char) (l r : List Char) (h : sep ∉ l) :
    splitChar sep (l ++ sep :: r) = l :: splitChar sep r := by
  induction l with
  | nil =>
    show splitChar sep (sep :: r) = [] :: splitChar sep r
    rw [splitChar, if_pos rfl]
  | cons c l' ih =>
    have hc : ¬c = sep := fun hc => h (hc ▸ List.mem_cons_self c l')
    show splitChar sep (c :: (l' ++ sep :: r)) = (c :: l') :: splitChar sep r
    rw [splitChar, if_neg hc, ih (fun hm => h (List.mem_cons_of_mem c hm))]

theorem string_data_append (a b : String) : (a ++ b).data = a.data ++ b.data := by
  cases a
  cases b
  rfl

theorem string_mk_data (s : String) : String.mk s.data = s := by
  cases s
  rfl

/-- C8 counterexample: the version string `"01.0"` consists of dotted
decimal-digit segments, yet split/unsplit does not return it: Python `int`
discards the leading zero, so the roundtrip yields `"1.0"`. -/
theorem version_roundtrip_counterexample :
    _split_version "01.0" = [1, 0] ∧
    _unsplit_version (_split_version "01.0") = "1.0" ∧
    _unsplit_version (_split_version "01.0") ≠ "01.0" := by
  refine ⟨by decide, by decide, by decide⟩

/-- C8 (amended): for version strings `"a.b"` whose segments are canonical
decimal-digit strings (no leading zero except `"0"` itself), splitting with
`_split_version` and re-joining with `_unsplit_version` yields the original
string. -/
theorem version_roundtrip_canonical (a b : String)
    (ha : CanonicalDecimal a) (hb : CanonicalDecimal b) :
    _unsplit_version (_split_version (a ++ "." ++ b)) = a ++ "." ++ b := by
  obtain ⟨hane, had, haz⟩ := ha
  obtain ⟨hbne, hbd, hbz⟩ := hb
  have hdata : (a ++ "." ++ b).data = a.data ++ '.' :: b.data := by
    rw [string_data_append, string_data_append]
    show a.data ++ ['.'] ++ b.data = _
    rw [List.append_assoc]
    rfl
  have hnota : '.' ∉ a.data := by
    intro hm
    have := had '.' hm
    simp [isDigitChar] at this
  have hnotb : '.' ∉ b.data := by
    intro hm
    have := hbd '.' hm
    simp [isDigitChar] at this
  rw [_split_version, hdata, splitChar_append '.' a.data b.data hnota,
    splitChar_no_sep '.' b.data hnotb, _unsplit_version]
  simp only [List.map_cons, List.map_nil]
  rw [natDigits_digitsVal a.data hane had haz,
    natDigits_digitsVal b.data hbne hbd hbz]
  show String.mk (a.data ++ '.' :: b.data) = a ++ "." ++ b
  rw [← hdata, string_mk_data]

/-- Witness for the amended C8 at the version string `"25.3"`. -/
theorem version_roundtrip_canonical_witness :
    CanonicalDecimal "25" ∧ CanonicalDecimal "3" ∧
    _unsplit_version (_split_version ("25" ++ "." ++ "3")) = "25" ++ "." ++ "3" :=
  ⟨by decide, by decide, version_roundtrip_canonical "25" "3" (by decide) (by decide)⟩

/-! ## Helper lemmas: the deployment-target line matcher -/

theorem stripLeading_append (p l : List Char) :
    stripLeading p (p ++ l) = some l := by
  induction p with
  | nil => rfl
  | cons c ps ih =>
    show stripLeading (c :: ps) (c :: (ps ++ l)) = some l
    rw [stripLeading, if_pos rfl, ih]

theorem grabQuoted_append (v : List Char) (h : '"' ∉ v) :
    grabQuoted (v ++ ['"']) = some v := by
  induction v with
  | nil => decide
  | cons c v' ih =>
    have hrest := ih (fun hm => h (List.mem_cons_of_mem c hm))
    show grabQuoted (c :: (v' ++ ['"'])) = some (c :: v')
    rw [grabQuoted, hrest]

/-- C9: deployment-target resolution succeeds exactly when the assignment
pattern matches exactly one line of the configuration text, returning that
line's quoted value, and fails on zero or several matches; a canonical
`mac_deployment_target = "<value>"` line matches with capture `<value>`. -/
theorem deployment_target_single_match (lines : List (List Char)) :
    (∀ v, _min_deployment_target lines = some v ↔
      lines.filterMap matchLine = [v]) ∧
    ((lines.filterMap matchLine).length ≠ 1 →
      _min_deployment_target lines = none) ∧
    (∀ v : List Char, '"' ∉ v →
      matchLine (mdtKey ++ ' ' :: '=' :: ' ' :: '"' :: (v ++ ['"'])) = some v) := by
  refine ⟨fun v => ?_, fun h => ?_, fun v hv => ?_⟩
  · rcases hm : lines.filterMap matchLine with _ | ⟨x, _ | ⟨y, t⟩⟩ <;>
      simp [_min_deployment_target, hm]
  · rcases hm : lines.filterMap matchLine with _ | ⟨x, _ | ⟨y, t⟩⟩
    · simp [_min_deployment_target, hm]
    · rw [hm] at h
      simp at h
    · simp [_min_deployment_target, hm]
  · have hdrop : (mdtKey ++ ' ' :: '=' :: ' ' :: '"' :: (v ++ ['"'])).dropWhile
        isPySpace = mdtKey ++ ' ' :: '=' :: ' ' :: '"' :: (v ++ ['"']) := rfl
    rw [matchLine, hdrop, stripLeading_append]
    show grabQuoted (v ++ ['"']) = some v
    exact grabQuoted_append v hv

/-- Witness for C9 on a two-line configuration with one matching line. -/
theorem deployment_target_single_match_witness :
    _min_deployment_target
      ["# comment".data, "mac_deployment_target = \"11.0\"  # x".data] =
      some "11.0".data :=
  ((deployment_target_single_match
    ["# comment".data, "mac_deployment_target = \"11.0\"  # x".data]).1
    "11.0".data).mpr (by decide)

end CompileCar

section Scratch
open CompileCar
example : _split_version "26.0" = [26, 0] := by decide
example : _unsplit_version [26, 0] = "26.0" := by decide
example : _verify_actool_version "27.0" = none := by decide
example : _unsplit_version (_split_version "01.0") = "1.0" := by decide
example : splitOnChar '_' "a_b" = ["a", "b"] := by decide
example : splitOnChar '_' "Assets" = ["Assets"] := by decide
example : _verify_actool_version "25.3" =
    some (tooOldMessage "25.3" "26.0") := by decide
example : pathSuffix "Assets_beta.xcassets" = ".xcassets" := by decide
example : pathStem "Assets_beta.xcassets" = "Assets_beta" := by decide
example : pathSuffix "Assets" = "" := by decide
example : pathName "/tmp/x/partial.plist" = "partial.plist" := by decide
example : catalogNameTag "Foo_beta.xcassets" = "_beta" := by decide
example : catalogNameTag "Foo.xcassets" = "" := by decide

example : _process_path "Foo_beta.xcassets" egOk =
    ([{ src := "/t/AppIcon.icns", dest := "app_beta.icns" },
      { src := "/t/Assets.car", dest := "Assets_beta.car" }], none) := by decide

example : (_process_path "Foo.xcassets" egNotice).1 = [] := by decide
example : (classify egNotice).isFailure = true := by decide
example : matchLine "mac_deployment_target = \"11.0\"".data = some "11.0".data := by
  decide
example : matchLine "  mac_deployment_target = \"11.0\"  # comment".data =
    some "11.0".data := by decide
example : matchLine "mac_deployment_target_extra = \"11.0\"".data = none := by
  decide
example : _min_deployment_target
    ["# x".data, "mac_deployment_target = \"11.0\"".data] = some "11.0".data := by
  decide
end Scratch
